import Mathlib

/-!
Shallow embedding of the chippy-web CHIP-8 emulator core
(`src/lib/emulator.ts`, richer variant with input and audio hooks, and the
display adapter `src/lib/rendering.ts`), together with proofs settling the
frozen claims about it.

Modelling conventions:
* JS `number` values that the program keeps integral are modelled as `Int`
  (or `Nat` where the source can never produce a negative value).
* A `Uint8Array` store is modelled as a write of `value % 256` (JS `ToUint8`
  of an integral value); a `Uint16Array` store as `value % 65536`; an
  out-of-range typed-array write is silently dropped, as in JS.
* JS bitwise operators are applied in this program only to values read from
  `Uint8Array` cells or to small non-negative constants, for which `ToInt32`
  is the identity; they are modelled through `Nat` bitwise operations.
* `Math.random()` is modelled by threading an oracle argument through
  `step`.
* The WebGL side of the display adapter is presentation-only; the display
  state is the `vPixels` array of on/off flags.  Accessing a property of
  `vPixels[index]` for an out-of-range `index` throws a TypeError in JS;
  operations that can do so return `Option`, with `none` for the throw.
* Calls to the audio adapter are recorded by an event counter
  (`stopToneRequests`) so that "requests a stop tone" is observable.
-/

namespace ChippyWeb

/-- JS truthiness of a `number | null` register slot: `null` and `0` are
falsy (source: `if (this.awaitingKey && this.keypadRegister)`). -/
def regTruthy : Option (Fin 16) → Bool
  | none => false
  | some r => r.val != 0

/-- JS truthiness of a `number | undefined` keypad lookup: `undefined` and
`0` are falsy (source: `if (!keypad) return;`). -/
def jsTruthyNat : Option Nat → Bool
  | none => false
  | some n => n != 0

/-- Bitwise AND of two JS numbers that are in `Uint8Array` range. -/
def jsAnd (a b : Int) : Int := Int.ofNat (a.toNat &&& b.toNat)

/-- Bitwise OR of two JS numbers that are in `Uint8Array` range. -/
def jsOr (a b : Int) : Int := Int.ofNat (a.toNat ||| b.toNat)

/-- Bitwise XOR of two JS numbers that are in `Uint8Array` range. -/
def jsXor (a b : Int) : Int := Int.ofNat (a.toNat ^^^ b.toNat)

/-- Right shift of a JS number that is in `Uint8Array` range. -/
def jsShr (a : Int) (n : Nat) : Int := Int.ofNat (a.toNat >>> n)

/-- Left shift of a JS number that is in `Uint8Array` range. -/
def jsShl (a : Int) (n : Nat) : Int := Int.ofNat (a.toNat <<< n)

def INSTRUCTION_SIZE : Nat := 2

def UINT8_MAX : Int := 255

def MEM_SIZE : Nat := 4096

def MAX_ROM_SIZE : Nat := 3232

/-- Program start location. -/
def START_ADDR : Nat := 0x200

def STACK_SIZE : Nat := 16

/-- Font character data. -/
def FONT_DATA : List Nat := [
  0xF0, 0x90, 0x90, 0x90, 0xF0,
  0x20, 0x60, 0x20, 0x20, 0x70,
  0xF0, 0x10, 0xF0, 0x80, 0xF0,
  0xF0, 0x10, 0xF0, 0x10, 0xF0,
  0x90, 0x90, 0xF0, 0x10, 0x10,
  0xF0, 0x80, 0xF0, 0x10, 0xF0,
  0xF0, 0x80, 0xF0, 0x90, 0xF0,
  0xF0, 0x10, 0x20, 0x40, 0x40,
  0xF0, 0x90, 0xF0, 0x90, 0xF0,
  0xF0, 0x90, 0xF0, 0x10, 0xF0,
  0xF0, 0x90, 0xF0, 0x90, 0x90,
  0xE0, 0x90, 0xE0, 0x90, 0xE0,
  0xF0, 0x80, 0x80, 0x80, 0xF0,
  0xE0, 0x90, 0x90, 0x90, 0xE0,
  0xF0, 0x80, 0xF0, 0x80, 0xF0,
  0xF0, 0x80, 0xF0, 0x80, 0x80]

/-- Number of bytes in a single font character. -/
def FONT_CHAR_WIDTH : Nat := 5

/-- Physical-key-code to logical-keypad-value table (`inputMap`). -/
def inputMap : String → Option Nat
  | "Digit1" => some 0x1
  | "Digit2" => some 0x2
  | "Digit3" => some 0x3
  | "Digit4" => some 0xC
  | "KeyQ" => some 0x4
  | "KeyW" => some 0x5
  | "KeyE" => some 0x6
  | "KeyR" => some 0xD
  | "KeyA" => some 0x7
  | "KeyS" => some 0x8
  | "KeyD" => some 0x9
  | "KeyF" => some 0xE
  | "KeyZ" => some 0xA
  | "KeyX" => some 0x0
  | "KeyC" => some 0xB
  | "KeyV" => some 0xF
  | _ => none

/-- Display width in VPixels (`Display.vWidth`). -/
def vWidth : Nat := 64

/-- Display height in VPixels (`Display.vHeight`). -/
def vHeight : Nat := 32

/-- The display adapter state: the flat `vPixels` array of `on` flags,
row-major, modelled as its length together with the flag at each index
(the same array-as-function embedding used for the system memory). -/
structure Display where
  vLength : Nat
  pix : Nat → Bool

/-- Display produced by `makeVPixelArray`: `vHeight * vWidth` pixels, all
off, pushed row by row into the flat array. -/
def initialDisplay : Display := ⟨vHeight * vWidth, fun _ => false⟩

/-- `Display.clear`: turn every existing pixel off (array length kept). -/
def Display.clear (d : Display) : Display :=
  { d with pix := fun _ => false }

/-- `Display.toggleVPixel`: flat index `y * vWidth + x`, toggle the pixel
there, return `true` when the pixel went from on to off.  The source does
not reduce `x` or `y`; when the flat index falls outside the array,
`this.vPixels[index]` is `undefined` and the access of `.on` throws
(modelled as `none`). -/
def toggleVPixel (d : Display) (x y : Nat) : Option (Bool × Display) :=
  let index := y * vWidth + x
  if index < d.vLength then
    let old := d.pix index
    some (old, { d with pix := fun j => if j = index then !old else d.pix j })
  else
    none

/-- The emulator state (fields of class `Chip8`), plus the
`stopToneRequests` event counter recording calls to `stopBuzzer`
(requests to the audio adapter to stop the tone). -/
structure Chip8 where
  pc : Nat
  i : Nat
  v : Fin 16 → Int
  stack : Fin 16 → Nat
  sp : Int
  delayTimer : Int
  soundTimer : Int
  memory : Nat → Nat
  awaitingKey : Bool
  keypadRegister : Option (Fin 16)
  pressedKeys : List Nat
  isBuzzing : Bool
  display : Display
  stopToneRequests : Nat

/-- Write to a `Uint8Array(16)` register slot: stores `ToUint8` of the
value, i.e. the value modulo 256. -/
def writeV (v : Fin 16 → Int) (idx : Fin 16) (val : Int) : Fin 16 → Int :=
  fun j => if j = idx then val % 256 else v j

/-- Write to the `Uint16Array(16)` call stack at a possibly out-of-range
stack pointer: an out-of-range typed-array write is silently ignored in
JS, and no `Fin 16` index coerces to such an `sp`. -/
def writeStack (st : Fin 16 → Nat) (sp : Int) (val : Nat) : Fin 16 → Nat :=
  fun j => if (j.val : Int) = sp then val % 65536 else st j

/-- Read the `Uint16Array(16)` call stack.  An out-of-range read yields
`undefined` in JS; it is modelled as 0 (no claim exercises that path). -/
def readStack (st : Fin 16 → Nat) (sp : Int) : Nat :=
  if h : 0 ≤ sp ∧ sp < 16 then st ⟨sp.toNat, by omega⟩ else 0

/-- Write to the `Uint8Array(4096)` system memory: `ToUint8` store,
out-of-range writes silently ignored. -/
def writeMem (m : Nat → Nat) (addr val : Nat) : Nat → Nat :=
  fun a => if addr < MEM_SIZE ∧ a = addr then val % 256 else m a

/-- JS `Set.add`: append the element unless already present. -/
def setAdd (l : List Nat) (k : Nat) : List Nat :=
  if l.contains k then l else l ++ [k]

/-- JS `Set.delete`: remove the element.  The list never holds duplicates,
so removing every occurrence coincides with deleting the one entry. -/
def setDelete (l : List Nat) (k : Nat) : List Nat :=
  l.filter (fun x => x ≠ k)

/-- Register index extraction: `(n) & 0xF`, always below 16. -/
def toReg (n : Nat) : Fin 16 :=
  ⟨n &&& 0xF, Nat.lt_succ_of_le Nat.and_le_right⟩

/-- `loadFontData`: writes `FONT_DATA[i]` to memory cell `i` for every
`i < FONT_DATA.length`. -/
def loadFontData (m : Nat → Nat) : Nat → Nat :=
  fun addr => if addr < FONT_DATA.length then FONT_DATA.getD addr 0 else m addr

/-- `startBuzzer`: creates and starts the oscillator (external), sets
`isBuzzing`. -/
def startBuzzer (s : Chip8) : Chip8 :=
  { s with isBuzzing := true }

/-- `stopBuzzer`: stops and drops the oscillator — one stop-tone request
to the audio adapter — and clears `isBuzzing`. -/
def stopBuzzer (s : Chip8) : Chip8 :=
  { s with isBuzzing := false, stopToneRequests := s.stopToneRequests + 1 }

/-- `reset`: zero the timers, registers, stack and memory, reload the
font, rearm `pc`/`i`/input state, stop the buzzer if it is sounding, and
clear the display. -/
def reset (s : Chip8) : Chip8 :=
  let s1 : Chip8 :=
    { s with delayTimer := 0, soundTimer := 0,
             v := fun _ => 0,
             stack := fun _ => 0,
             sp := (STACK_SIZE : Int) - 1,
             memory := loadFontData (fun _ => 0),
             pc := START_ADDR, i := 0,
             awaitingKey := false, keypadRegister := none,
             pressedKeys := [] }
  let s2 := if s1.isBuzzing then stopBuzzer s1 else s1
  { s2 with display := Display.clear s2.display }

/-- Copy the first `n` bytes of `rom` into memory at `START_ADDR`,
mirroring the `for` loop of `loadROM` (byte `k` is written on iteration
`k`). -/
def copyROM (m : Nat → Nat) (rom : List Nat) : Nat → (Nat → Nat)
  | 0 => m
  | k + 1 => writeMem (copyROM m rom k) (START_ADDR + k) (rom.getD k 0)

/-- `loadROM`: full reset, then copy at most `MAX_ROM_SIZE` bytes of the
ROM into memory starting at `START_ADDR`. -/
def loadROM (s : Chip8) (rom : List Nat) : Chip8 :=
  let s1 := reset s
  let readSize := if rom.length ≤ MAX_ROM_SIZE then rom.length else MAX_ROM_SIZE
  { s1 with memory := copyROM s1.memory rom readSize }

/-- `handleKeyDown`: map the physical code; ignore unmapped codes; add the
logical key to the pressed set; if the awaiting-key latch is armed and the
latched register is truthy, write the key into that register and disarm
the latch. -/
def handleKeyDown (s : Chip8) (code : String) : Chip8 :=
  match inputMap code with
  | none => s
  | some keypad =>
    let s1 := { s with pressedKeys := setAdd s.pressedKeys keypad }
    if s1.awaitingKey && regTruthy s1.keypadRegister then
      { s1 with v := writeV s1.v (s1.keypadRegister.getD 0) (Int.ofNat keypad),
                awaitingKey := false, keypadRegister := none }
    else s1

/-- `handleKeyUp`: map the physical code; return early when the lookup is
falsy (`undefined` or key `0x0`); otherwise remove the key from the
pressed set. -/
def handleKeyUp (s : Chip8) (code : String) : Chip8 :=
  let keypad := inputMap code
  if !(jsTruthyNat keypad) then s
  else { s with pressedKeys := setDelete s.pressedKeys (keypad.getD 0) }

/-- `decrementTimers`: decrement the delay timer while positive; decrement
the sound timer while positive, and otherwise request a stop tone if one
is sounding. -/
def decrementTimers (s : Chip8) : Chip8 :=
  let s1 := if s.delayTimer > 0 then { s with delayTimer := s.delayTimer - 1 } else s
  if s1.soundTimer > 0 then { s1 with soundTimer := s1.soundTimer - 1 }
  else if s1.isBuzzing then stopBuzzer s1 else s1

/-- `readWord`: fetch the big-endian 16-bit word at `pc`, advance `pc` by
the instruction size, wrapping it back to `START_ADDR` when it reaches
`0x1000`. -/
def readWord (s : Chip8) : Nat × Chip8 :=
  let byte0 := s.memory s.pc
  let byte1 := s.memory (s.pc + 1)
  let pc1 := s.pc + INSTRUCTION_SIZE
  let pc2 := if pc1 ≥ 0x1000 then START_ADDR else pc1
  (byte0 <<< 8 ||| byte1, { s with pc := pc2 })

/-- `callSubroutine`: push `pc` at the current stack pointer, move the
pointer down, jump to the target address. -/
def callSubroutine (s : Chip8) (args : Nat) : Chip8 :=
  { s with stack := writeStack s.stack s.sp s.pc,
           sp := s.sp - 1,
           pc := args }

/-- `returnFromSubroutine`: move the stack pointer up, pop the return
address into `pc`. -/
def returnFromSubroutine (s : Chip8) : Chip8 :=
  { s with sp := s.sp + 1,
           pc := readStack s.stack (s.sp + 1) }

/-- `setRegister` (opcode 6XNN): `v[x] = NN`. -/
def setRegister (s : Chip8) (args : Nat) : Chip8 :=
  { s with v := writeV s.v (toReg (args >>> 8)) (Int.ofNat (args &&& 0xFF)) }

/-- `addToRegister` (opcode 7XNN): `v[x] += NN` with the `Uint8Array`
store wrapping the sum. -/
def addToRegister (s : Chip8) (args : Nat) : Chip8 :=
  { s with v := writeV s.v (toReg (args >>> 8))
                  (s.v (toReg (args >>> 8)) + Int.ofNat (args &&& 0xFF)) }

/-- `bitAndMathOps` (opcode 8XYZ): the register-register ALU.  The dead
branches of the source (a `Uint8Array` cell can never exceed 255 nor be
negative after the wrapped store) are embedded as written. -/
def bitAndMathOps (s : Chip8) (args : Nat) : Chip8 :=
  let x := toReg (args >>> 8)
  let y := toReg (args >>> 4)
  let z := args &&& 0xF
  match z with
  | 0x0 => { s with v := writeV s.v x (s.v y) }
  | 0x1 => { s with v := writeV s.v x (jsOr (s.v x) (s.v y)) }
  | 0x2 => { s with v := writeV s.v x (jsAnd (s.v x) (s.v y)) }
  | 0x3 => { s with v := writeV s.v x (jsXor (s.v x) (s.v y)) }
  | 0x4 =>
    let s1 := { s with v := writeV s.v x (s.v x + s.v y) }
    if s1.v x > UINT8_MAX then
      -- `this.v[idxX] - UINT8_MAX;` is a discarded expression statement
      { s1 with v := writeV s1.v 15 1 }
    else s1
  | 0x5 =>
    let s1 := { s with v := writeV s.v x (s.v x - s.v y) }
    if s1.v x < (0 : Int) then
      let s2 := { s1 with v := writeV s1.v 15 0 }
      { s2 with v := writeV s2.v x (UINT8_MAX + s2.v x) }
    else { s1 with v := writeV s1.v 15 1 }
  | 0x6 =>
    let s1 := { s with v := writeV s.v 15 (jsAnd (s.v x) 0b1) }
    { s1 with v := writeV s1.v x (jsShr (s1.v x) 1) }
  | 0x7 =>
    let s1 := { s with v := writeV s.v x (s.v y - s.v x) }
    if s1.v x < (0 : Int) then
      let s2 := { s1 with v := writeV s1.v 15 0 }
      { s2 with v := writeV s2.v x (UINT8_MAX + s2.v x) }
    else { s1 with v := writeV s1.v 15 1 }
  | 0xE =>
    let s1 := { s with v := writeV s.v 15 (jsAnd (s.v x) 0b10000000) }
    { s1 with v := writeV s1.v x (jsShl (s1.v x) 1) }
  | _ => s

/-- `skipIfVXeqNN` (opcode 3XNN). -/
def skipIfVXeqNN (s : Chip8) (args : Nat) : Chip8 :=
  if s.v (toReg (args >>> 8)) = Int.ofNat (args &&& 0xFF) then
    { s with pc := s.pc + INSTRUCTION_SIZE }
  else s

/-- `skipIfVXneqNN` (opcode 4XNN). -/
def skipIfVXneqNN (s : Chip8) (args : Nat) : Chip8 :=
  if s.v (toReg (args >>> 8)) ≠ Int.ofNat (args &&& 0xFF) then
    { s with pc := s.pc + INSTRUCTION_SIZE }
  else s

/-- `skipIfVXeqVY` (opcode 5XY0). -/
def skipIfVXeqVY (s : Chip8) (args : Nat) : Chip8 :=
  if s.v (toReg (args >>> 8)) = s.v (toReg (args >>> 4)) then
    { s with pc := s.pc + INSTRUCTION_SIZE }
  else s

/-- `skipIfVXneqVY` (opcode 9XY0): skip next instruction if VX is not
VY. -/
def skipIfVXneqVY (s : Chip8) (args : Nat) : Chip8 :=
  if s.v (toReg (args >>> 8)) ≠ s.v (toReg (args >>> 4)) then
    { s with pc := s.pc + INSTRUCTION_SIZE }
  else s

/-- `randByte` (opcode CXNN): `Math.random() * 255` floored is supplied by
the oracle `r`, then masked with the immediate and stored. -/
def randByte (s : Chip8) (args : Nat) (r : Nat) : Chip8 :=
  { s with v := writeV s.v (toReg (args >>> 8))
                  (Int.ofNat (r &&& (args &&& 0xFF))) }

/-- One sprite pixel: toggle the display pixel, and set VF to 1 when the
toggle turned a pixel off. -/
def drawPixel (s : Chip8) (locX locY : Nat) : Option Chip8 :=
  match toggleVPixel s.display locX locY with
  | none => none
  | some (didUnset, d) =>
    some (if didUnset then { s with display := d, v := writeV s.v 15 1 }
          else { s with display := d })

/-- Inner column loop of `drawSprite` over the listed column offsets. -/
def drawSpriteCols (s : Chip8) (x y row spriteLine : Nat) :
    List Nat → Option Chip8
  | [] => some s
  | col :: rest =>
    let bit := (spriteLine >>> (7 - col)) &&& 0b1
    let next := if bit = 0b1 then drawPixel s (x + col) (y + row) else some s
    match next with
    | none => none
    | some s1 => drawSpriteCols s1 x y row spriteLine rest

/-- Outer row loop of `drawSprite` over the listed row offsets. -/
def drawSpriteRows (s : Chip8) (x y : Nat) : List Nat → Option Chip8
  | [] => some s
  | row :: rest =>
    match drawSpriteCols s x y row (s.memory (s.i + row)) (List.range 8) with
    | none => none
    | some s1 => drawSpriteRows s1 x y rest

/-- `drawSprite` (opcode DXYN): wrap the origin modulo the display size,
then XOR-blit `height` sprite rows of 8 pixels; the per-pixel coordinates
`x + col`, `y + row` are passed to the display adapter unreduced.  The
final `render()` call has no model state. -/
def drawSprite (s : Chip8) (args : Nat) : Option Chip8 :=
  let x := (s.v (toReg (args >>> 8))).toNat % vWidth
  let y := (s.v (toReg (args >>> 4))).toNat % vHeight
  let height := args &&& 0xF
  drawSpriteRows s x y (List.range height)

/-- Body of the `regDump` loop for the listed loop indices. -/
def regDumpAux (s : Chip8) : List Nat → Chip8
  | [] => s
  | j :: rest =>
    regDumpAux
      { s with memory := writeMem s.memory (s.i + j) (s.v (toReg j)).toNat }
      rest

/-- `regDump` (opcode FX55): write `v[0..stopIdx]` to memory at `i`. -/
def regDump (s : Chip8) (stopIdx : Nat) : Chip8 :=
  regDumpAux s (List.range (stopIdx + 1))

/-- Body of the `regLoad` loop for the listed loop indices. -/
def regLoadAux (s : Chip8) : List Nat → Chip8
  | [] => s
  | j :: rest =>
    regLoadAux
      { s with v := writeV s.v (toReg j) (Int.ofNat (s.memory (s.i + j))) }
      rest

/-- `regLoad` (opcode FX65): load `v[0..stopIdx]` from memory at `i`. -/
def regLoad (s : Chip8) (stopIdx : Nat) : Chip8 :=
  regLoadAux s (List.range (stopIdx + 1))

/-- `setBCD` (opcode FX33): store the decimal digits of `v[x]`.  The JS
float divisions are exact here (`hundreds` is a multiple of 100 and
`tens` of 10), so `Nat` division is faithful. -/
def setBCD (s : Chip8) (vIdx : Fin 16) : Chip8 :=
  let num := (s.v vIdx).toNat
  let ones := num % 10
  let tens := (num - ones) % 100
  let hundreds := (num - (tens + ones)) % 1000
  let m1 := writeMem s.memory s.i (hundreds / 100)
  let m2 := writeMem m1 (s.i + 1) (tens / 10)
  let m3 := writeMem m2 (s.i + 2) ones
  { s with memory := m3 }

/-- `miscOps` (opcode FXNN): timers, key-wait arming, index arithmetic,
font lookup, BCD and register block transfer. -/
def miscOps (s : Chip8) (args : Nat) : Chip8 :=
  let x := toReg (args >>> 8)
  let n := args &&& 0xFF
  match n with
  | 0x07 => { s with v := writeV s.v x s.delayTimer }
  | 0x0A => { s with awaitingKey := true, keypadRegister := some x }
  | 0x15 => { s with delayTimer := s.v x }
  | 0x18 =>
    let s1 := { s with soundTimer := s.v x }
    if !s1.isBuzzing && s1.soundTimer > 0 then startBuzzer s1 else s1
  | 0x1E => { s with i := s.i + (s.v x).toNat }
  | 0x29 => { s with i := (s.v x).toNat * FONT_CHAR_WIDTH }
  | 0x33 => setBCD s x
  | 0x55 => regDump s x.val
  | 0x65 => regLoad s x.val
  | _ => s

/-- `inputBranching` (opcode EXNN): skip on the pressed state of the key
named by `v[x]`. -/
def inputBranching (s : Chip8) (args : Nat) : Chip8 :=
  let x := toReg (args >>> 8)
  let n := args &&& 0xFF
  let expectedKey := (s.v x).toNat
  match n with
  | 0x9E =>
    if s.pressedKeys.contains expectedKey then
      { s with pc := s.pc + INSTRUCTION_SIZE }
    else s
  | 0xA1 =>
    if !(s.pressedKeys.contains expectedKey) then
      { s with pc := s.pc + INSTRUCTION_SIZE }
    else s
  | _ => s

/-- `step`: a no-op while the awaiting-key latch is armed; otherwise one
fetch-decode-execute cycle.  `rand` is the oracle for `Math.random()`;
`none` models the draw path throwing on an out-of-range pixel access. -/
def step (s : Chip8) (rand : Nat) : Option Chip8 :=
  if s.awaitingKey then some s
  else
    let fet := readWord s
    let opcode := fet.1
    let s1 := fet.2
    let category := opcode >>> 12
    let args := opcode &&& 0x0FFF
    match category with
    | 0x0 =>
      match args with
      | 0x0E0 => some { s1 with display := Display.clear s1.display }
      | 0x0EE => some (returnFromSubroutine s1)
      | _ => some s1
    | 0x1 => some { s1 with pc := args }
    | 0x2 => some (callSubroutine s1 args)
    | 0x3 => some (skipIfVXeqNN s1 args)
    | 0x4 => some (skipIfVXneqNN s1 args)
    | 0x5 => some (skipIfVXeqVY s1 args)
    | 0x6 => some (setRegister s1 args)
    | 0x7 => some (addToRegister s1 args)
    | 0x8 => some (bitAndMathOps s1 args)
    | 0x9 => some (skipIfVXneqVY s1 args)
    | 0xA => some { s1 with i := args }
    | 0xB => some { s1 with pc := (s1.v 0).toNat + args }
    | 0xC => some (randByte s1 args rand)
    | 0xD => drawSprite s1 args
    | 0xE => some (inputBranching s1 args)
    | 0xF => some (miscOps s1 args)
    | _ => some s1

/-- State produced by the constructor (with an initialized display):
`sp = STACK_SIZE - 1`, font loaded, display cleared. -/
def initChip8 : Chip8 :=
  { pc := START_ADDR, i := 0,
    v := fun _ => 0,
    stack := fun _ => 0,
    sp := (STACK_SIZE : Int) - 1,
    delayTimer := 0, soundTimer := 0,
    memory := loadFontData (fun _ => 0),
    awaitingKey := false, keypadRegister := none,
    pressedKeys := [], isBuzzing := false,
    display := Display.clear initialDisplay,
    stopToneRequests := 0 }

/-- Pixel lookup in the flat `vPixels` array at row-major index
`y * vWidth + x` (`none` when the index is outside the array). -/
def pixelAt (d : Display) (x y : Nat) : Option Bool :=
  if y * vWidth + x < d.vLength then some (d.pix (y * vWidth + x)) else none

/-- Apply `callSubroutine` with the same target address `n` times. -/
def iterateCalls (s : Chip8) (addr : Nat) : Nat → Chip8
  | 0 => s
  | n + 1 => callSubroutine (iterateCalls s addr n) addr

/-- Fresh machine with `V0 = 250` and `V1 = 10`. -/
def c1State : Chip8 :=
  { initChip8 with v := writeV (writeV initChip8.v 0 250) 1 10 }

/-- C1: refuted as stated.  For opcode 0x8014 (add V1 into V0) with
`V0 = 250`, `V1 = 10`, the code wraps the sum to 4 as the claim says, but
the carry check `this.v[idxX] > UINT8_MAX` reads the already-wrapped
`Uint8Array` cell and can never fire, so VF stays 0 where the claim
requires VF = 1. -/
theorem c1_addWithCarry_code_eval :
    (bitAndMathOps c1State 0x014).v 0 = 4 ∧
    (bitAndMathOps c1State 0x014).v 15 = 0 := by decide

/-- Fresh machine with the awaiting-key latch armed targeting register 0
(opcode 0xF00A), then a key-down for physical code KeyA (logical key
0x7). -/
def c2State : Chip8 := handleKeyDown (miscOps initChip8 0x00A) "KeyA"

/-- C2: refuted as stated.  With the latch armed on target register 0,
the guard `this.awaitingKey && this.keypadRegister` is falsy (the slot
holds the number 0), so the key-down adds the key to the pressed set but
neither writes `V[0]` nor disarms the latch. -/
theorem c2_keyWait_register0_code_eval :
    c2State.awaitingKey = true ∧
    c2State.keypadRegister = some 0 ∧
    c2State.v 0 = 0 ∧
    c2State.pressedKeys.contains 0x7 = true := by decide

/-- C3: refuted as stated.  Sixteen nested calls from a fresh machine
drive the stack pointer to -1; the seventeenth call raises nothing: the
out-of-range `Uint16Array` write is silently dropped (all sixteen stack
slots unchanged), the stack pointer falls to -2, and execution continues
at the call target. -/
theorem c3_stackOverflow_code_eval :
    (iterateCalls initChip8 0x300 16).sp = -1 ∧
    (iterateCalls initChip8 0x300 17).sp = -2 ∧
    (∀ j : Fin 16,
      (iterateCalls initChip8 0x300 17).stack j =
        (iterateCalls initChip8 0x300 16).stack j) ∧
    (iterateCalls initChip8 0x300 17).pc = 0x300 := by decide

/-- C5: refuted as stated.  Key-down for physical code KeyX puts logical
key 0x0 in the pressed set, but key-up for the same code hits the falsy
guard `if (!keypad)` (the lookup yields the number 0) and returns without
removing it: the key stays pressed. -/
theorem c5_keyUpZero_code_eval :
    (handleKeyDown initChip8 "KeyX").pressedKeys.contains 0x0 = true ∧
    (handleKeyUp (handleKeyDown initChip8 "KeyX") "KeyX").pressedKeys.contains
        0x0 = true := by decide

/-- Fresh machine with `V0 = 0x80`. -/
def c6State : Chip8 :=
  { initChip8 with v := writeV initChip8.v 0 0x80 }

/-- C6: refuted as stated.  For opcode 0x800E (shift V0 left) with
`V0 = 0x80`, the code stores the raw mask `V0 & 0b10000000 = 128` into
VF — not the claimed 0-or-1 bit — while V0 correctly becomes
`(0x80 * 2) % 256 = 0`. -/
theorem c6_shiftLeft_code_eval :
    (bitAndMathOps c6State 0x00E).v 15 = 128 ∧
    (bitAndMathOps c6State 0x00E).v 0 = 0 := by decide

/-- Fresh machine with `V0 = 63`, `V1 = 0`, `i = 0x300` and the sprite
row `0b11000000` at memory address 0x300. -/
def c7State : Chip8 :=
  { initChip8 with v := writeV initChip8.v 0 63, i := 0x300,
                   memory := writeMem initChip8.memory 0x300 0xC0 }

/-- C7: refuted as stated.  Drawing the two-pixel sprite row at
`x = V0 = 63`, `y = V1 = 0` (opcode 0xD011), the second sprite column has
unreduced coordinate `x + col = 64`; the claim's wrap rule predicts pixel
`(64 % 64, 0 % 32) = (0, 0)`, but the code computes flat index
`0 * 64 + 64 = 64` and lights pixel `(0, 1)` of the next row instead,
leaving `(0, 0)` off. -/
theorem c7_drawWrap_code_eval :
    (drawSprite c7State 0x011).map
        (fun s => (pixelAt s.display 63 0, pixelAt s.display 0 0,
                   pixelAt s.display 0 1)) =
      some (some true, some false, some true) := by decide

/-- Sound-timer effect of one timer tick: decremented exactly when it was
positive (the delay-timer stage never touches it). -/
theorem decrementTimers_soundTimer (s : Chip8) :
    (decrementTimers s).soundTimer =
      if s.soundTimer > 0 then s.soundTimer - 1 else s.soundTimer := by
  by_cases hd : s.delayTimer > 0 <;> by_cases hs : s.soundTimer > 0 <;>
    by_cases hb : s.isBuzzing = true <;>
      simp [decrementTimers, stopBuzzer, hd, hs, hb]

/-- Tone state after one timer tick: untouched while the sound timer is
positive, off otherwise. -/
theorem decrementTimers_isBuzzing (s : Chip8) :
    (decrementTimers s).isBuzzing =
      if s.soundTimer > 0 then s.isBuzzing else false := by
  by_cases hd : s.delayTimer > 0 <;> by_cases hs : s.soundTimer > 0 <;>
    by_cases hb : s.isBuzzing = true <;>
      simp [decrementTimers, stopBuzzer, hd, hs, hb]

/-- Stop-tone requests issued by one timer tick: none while the sound
timer is positive, one when it is exhausted and a tone is active. -/
theorem decrementTimers_stopToneRequests (s : Chip8) :
    (decrementTimers s).stopToneRequests =
      if s.soundTimer > 0 then s.stopToneRequests
      else if s.isBuzzing then s.stopToneRequests + 1
      else s.stopToneRequests := by
  by_cases hd : s.delayTimer > 0 <;> by_cases hs : s.soundTimer > 0 <;>
    by_cases hb : s.isBuzzing = true <;>
      simp [decrementTimers, stopBuzzer, hd, hs, hb]

/-- Fresh machine with `soundTimer = 1` and an active tone. -/
def c4State : Chip8 := { initChip8 with soundTimer := 1, isBuzzing := true }

/-- C4 counterexample: with `soundTimer = 1` and a tone active, a single
tick does leave the sound timer at 0, but it issues no stop-tone request
during that same tick (the decrement branch and the stop branch are
mutually exclusive), so the claimed conjunction fails. -/
theorem c4_sameTickStop_counterexample :
    ¬ ((decrementTimers c4State).soundTimer = 0 ∧
       (decrementTimers c4State).stopToneRequests =
         c4State.stopToneRequests + 1) := by
  decide

/-- C4 (amended): if the sound timer equals 1 and a tone is active, the
tick decrements the timer to 0 and issues no stop-tone request; the stop
request is issued exactly once, on the first following tick, which also
deactivates the tone, and later ticks issue no further request. -/
theorem c4_stopTone_on_next_tick (s : Chip8) (h1 : s.soundTimer = 1)
    (h2 : s.isBuzzing = true) :
    (decrementTimers s).soundTimer = 0 ∧
    (decrementTimers s).stopToneRequests = s.stopToneRequests ∧
    (decrementTimers (decrementTimers s)).stopToneRequests =
      s.stopToneRequests + 1 ∧
    (decrementTimers (decrementTimers s)).isBuzzing = false ∧
    (decrementTimers (decrementTimers (decrementTimers s))).stopToneRequests =
      s.stopToneRequests + 1 := by
  simp [decrementTimers_soundTimer, decrementTimers_isBuzzing,
        decrementTimers_stopToneRequests, h1, h2]

/-- C4 witness: the amended behaviour at the concrete state `c4State`. -/
theorem c4_stopTone_on_next_tick_witness :
    (decrementTimers c4State).soundTimer = 0 ∧
    (decrementTimers c4State).stopToneRequests = c4State.stopToneRequests ∧
    (decrementTimers (decrementTimers c4State)).stopToneRequests =
      c4State.stopToneRequests + 1 ∧
    (decrementTimers (decrementTimers c4State)).isBuzzing = false ∧
    (decrementTimers (decrementTimers (decrementTimers c4State))).stopToneRequests =
      c4State.stopToneRequests + 1 :=
  c4_stopTone_on_next_tick c4State (by decide) (by decide)

/-- C9: while the awaiting-key latch is armed, `step` returns the state
unchanged in every field — it is a pure no-op regardless of the random
oracle. -/
theorem c9_step_noop_while_awaiting (s : Chip8) (rand : Nat)
    (h : s.awaitingKey = true) :
    step s rand = some s := by
  simp [step, h]

/-- Fresh machine with the awaiting-key latch armed (opcode 0xF10A,
target register 1). -/
def c9State : Chip8 := miscOps initChip8 0x10A

/-- C9 witness: the no-op at a concrete armed state. -/
theorem c9_step_noop_witness :
    c9State.awaitingKey = true ∧ step c9State 0 = some c9State :=
  ⟨by decide, c9_step_noop_while_awaiting c9State 0 (by decide)⟩

/-- Characterization of the ROM copy loop: after writing the first `n`
ROM bytes (with `n` within the ROM capacity, so every target address is
within memory bounds), memory holds the wrapped ROM byte on the copied
range and is untouched elsewhere. -/
theorem copyROM_getD (m : Nat → Nat) (rom : List Nat) :
    ∀ n, n ≤ MAX_ROM_SIZE → ∀ addr,
      copyROM m rom n addr =
        if START_ADDR ≤ addr ∧ addr < START_ADDR + n
        then rom.getD (addr - START_ADDR) 0 % 256
        else m addr := by
  intro n
  induction n with
  | zero =>
    intro _ addr
    rw [if_neg (by omega)]
    rfl
  | succ k ih =>
    intro hk addr
    have hk' : k ≤ MAX_ROM_SIZE := Nat.le_of_succ_le hk
    have hbound : START_ADDR + k < MEM_SIZE := by
      simp only [MAX_ROM_SIZE] at hk
      simp only [START_ADDR, MEM_SIZE]
      omega
    show writeMem (copyROM m rom k) (START_ADDR + k) (rom.getD k 0) addr = _
    unfold writeMem
    by_cases ha : addr = START_ADDR + k
    · rw [if_pos ⟨hbound, ha⟩,
          if_pos (show START_ADDR ≤ addr ∧ addr < START_ADDR + (k + 1) by omega),
          show addr - START_ADDR = k by omega]
    · rw [if_neg (fun hc => ha hc.2), ih hk' addr]
      by_cases hr : START_ADDR ≤ addr ∧ addr < START_ADDR + k
      · rw [if_pos hr, if_pos (by omega)]
      · rw [if_neg hr, if_neg (by omega)]

/-- C8: `loadROM` copies exactly `min (length rom) MAX_ROM_SIZE` bytes of
the ROM into memory starting at `START_ADDR`, leaves every address
outside that range exactly as the preceding reset left it, and is total —
oversized input is truncated, never an error. -/
theorem c8_loadROM_truncates (s : Chip8) (rom : List Nat)
    (hrom : ∀ b ∈ rom, b < 256) (addr : Nat) :
    (loadROM s rom).memory addr =
      if START_ADDR ≤ addr ∧ addr < START_ADDR + min rom.length MAX_ROM_SIZE
      then rom.getD (addr - START_ADDR) 0
      else (reset s).memory addr := by
  have hmin : (if rom.length ≤ MAX_ROM_SIZE then rom.length else MAX_ROM_SIZE)
      = min rom.length MAX_ROM_SIZE := Nat.min_def.symm
  show copyROM (reset s).memory rom
      (if rom.length ≤ MAX_ROM_SIZE then rom.length else MAX_ROM_SIZE) addr = _
  rw [hmin, copyROM_getD _ _ _ (Nat.min_le_right _ _) addr]
  by_cases hr : START_ADDR ≤ addr ∧
      addr < START_ADDR + min rom.length MAX_ROM_SIZE
  · rw [if_pos hr, if_pos hr]
    have hidx : addr - START_ADDR < rom.length := by
      have := Nat.min_le_left rom.length MAX_ROM_SIZE
      omega
    rw [List.getD_eq_getElem _ _ hidx]
    exact Nat.mod_eq_of_lt (hrom _ (List.getElem_mem hidx))
  · rw [if_neg hr, if_neg hr]

/-- C8 witness: loading the two-byte ROM `[0xAB, 0xCD]` into a fresh
machine puts `0xAB` at the program start address. -/
theorem c8_loadROM_truncates_witness :
    (loadROM initChip8 [0xAB, 0xCD]).memory 0x200 = 0xAB :=
  (c8_loadROM_truncates initChip8 [0xAB, 0xCD] (by decide) 0x200).trans
    (by decide)


/-- Register-file invariant: all sixteen general registers hold an
integer in the range [0, 255]. -/
def VRange (s : Chip8) : Prop := ∀ j : Fin 16, 0 ≤ s.v j ∧ s.v j ≤ 255

/-- A register write through the `Uint8Array` store keeps every register
in range. -/
theorem writeV_range {v : Fin 16 → Int} (hv : ∀ j, 0 ≤ v j ∧ v j ≤ 255)
    (idx : Fin 16) (val : Int) :
    ∀ j : Fin 16, 0 ≤ writeV v idx val j ∧ writeV v idx val j ≤ 255 := by
  intro j
  unfold writeV
  split
  · have h1 := Int.emod_nonneg val (show (256 : Int) ≠ 0 by norm_num)
    have h2 := Int.emod_lt_of_pos val (show (0 : Int) < 256 by norm_num)
    omega
  · exact hv j

/-- The invariant transfers along an unchanged register file. -/
theorem VRange_of_v_eq {s t : Chip8} (h : VRange s) (he : t.v = s.v) :
    VRange t := by
  intro j; rw [he]; exact h j

/-- A timer tick never touches the register file. -/
theorem decrementTimers_v (s : Chip8) : (decrementTimers s).v = s.v := by
  by_cases hd : s.delayTimer > 0 <;> by_cases hs : s.soundTimer > 0 <;>
    by_cases hb : s.isBuzzing = true <;>
      simp [decrementTimers, stopBuzzer, hd, hs, hb]

/-- `reset` zeroes the register file. -/
theorem reset_v (s : Chip8) : (reset s).v = fun _ => 0 := by
  simp only [reset, stopBuzzer]
  split <;> rfl

/-- After `reset`, every register is in range. -/
theorem reset_VRange (s : Chip8) : VRange (reset s) := by
  intro j
  rw [reset_v]
  norm_num

/-- The register dump loop never touches the register file. -/
theorem regDumpAux_v (l : List Nat) : ∀ s : Chip8, (regDumpAux s l).v = s.v := by
  induction l with
  | nil => intro s; rfl
  | cons a t ih => intro s; exact (ih _).trans rfl

/-- The register load loop keeps every register in range. -/
theorem regLoadAux_VRange (l : List Nat) :
    ∀ {s : Chip8}, VRange s → VRange (regLoadAux s l) := by
  induction l with
  | nil => intro s h; exact h
  | cons a t ih => intro s h; exact ih (writeV_range h _ _)

/-- The ALU keeps every register in range. -/
theorem bitAndMathOps_VRange {s : Chip8} (h : VRange s) (args : Nat) :
    VRange (bitAndMathOps s args) := by
  simp only [bitAndMathOps]
  split <;> (try split) <;>
    first
      | exact h
      | exact writeV_range h _ _
      | exact writeV_range (writeV_range h _ _) _ _
      | exact writeV_range (writeV_range (writeV_range h _ _) _ _) _ _

/-- The equality skip keeps every register in range. -/
theorem skipIfVXeqNN_VRange {s : Chip8} (h : VRange s) (args : Nat) :
    VRange (skipIfVXeqNN s args) := by
  unfold skipIfVXeqNN; split <;> exact h

/-- The inequality skip keeps every register in range. -/
theorem skipIfVXneqNN_VRange {s : Chip8} (h : VRange s) (args : Nat) :
    VRange (skipIfVXneqNN s args) := by
  unfold skipIfVXneqNN; split <;> exact h

/-- The register-equality skip keeps every register in range. -/
theorem skipIfVXeqVY_VRange {s : Chip8} (h : VRange s) (args : Nat) :
    VRange (skipIfVXeqVY s args) := by
  unfold skipIfVXeqVY; split <;> exact h

/-- The register-inequality skip keeps every register in range. -/
theorem skipIfVXneqVY_VRange {s : Chip8} (h : VRange s) (args : Nat) :
    VRange (skipIfVXneqVY s args) := by
  unfold skipIfVXneqVY; split <;> exact h

/-- The keypad skips keep every register in range. -/
theorem inputBranching_VRange {s : Chip8} (h : VRange s) (args : Nat) :
    VRange (inputBranching s args) := by
  simp only [inputBranching]
  split <;> (try split) <;> exact h

/-- The misc opcode family keeps every register in range. -/
theorem miscOps_VRange {s : Chip8} (h : VRange s) (args : Nat) :
    VRange (miscOps s args) := by
  simp only [miscOps]
  split <;> (try split) <;>
    first
      | exact h
      | exact writeV_range h _ _
      | exact VRange_of_v_eq h (regDumpAux_v _ _)
      | exact regLoadAux_VRange _ h

/-- One sprite pixel keeps every register in range. -/
theorem drawPixel_VRange {s : Chip8} (h : VRange s) {x y : Nat} {s' : Chip8}
    (hd : drawPixel s x y = some s') : VRange s' := by
  simp only [drawPixel] at hd
  split at hd
  · cases hd
  · injection hd with e
    subst e
    split
    · exact writeV_range h _ _
    · exact h

/-- The sprite column loop keeps every register in range. -/
theorem drawSpriteCols_VRange (cols : List Nat) :
    ∀ {s : Chip8} (x y row line : Nat) {s' : Chip8}, VRange s →
      drawSpriteCols s x y row line cols = some s' → VRange s' := by
  induction cols with
  | nil =>
    intro s x y row line s' h hc
    injection hc with e; subst e; exact h
  | cons c t ih =>
    intro s x y row line s' h hc
    simp only [drawSpriteCols] at hc
    split at hc
    · cases hc
    · rename_i s1 heq
      refine ih _ _ _ _ ?_ hc
      split at heq
      · exact drawPixel_VRange h heq
      · injection heq with e; subst e; exact h

/-- The sprite row loop keeps every register in range. -/
theorem drawSpriteRows_VRange (rows : List Nat) :
    ∀ {s : Chip8} (x y : Nat) {s' : Chip8}, VRange s →
      drawSpriteRows s x y rows = some s' → VRange s' := by
  induction rows with
  | nil => intro s x y s' h hr; injection hr with e; subst e; exact h
  | cons r t ih =>
    intro s x y s' h hr
    simp only [drawSpriteRows] at hr
    split at hr
    · cases hr
    · rename_i s1 heq
      exact ih _ _ (drawSpriteCols_VRange _ _ _ _ _ h heq) hr

/-- A completed sprite draw keeps every register in range. -/
theorem drawSprite_VRange {s : Chip8} (h : VRange s) (args : Nat) {s' : Chip8}
    (hd : drawSprite s args = some s') : VRange s' := by
  unfold drawSprite at hd
  exact drawSpriteRows_VRange _ _ _ h hd

/-- A completed `step` keeps every register in range. -/
theorem step_VRange {s : Chip8} (h : VRange s) (rand : Nat) {s' : Chip8}
    (hs : step s rand = some s') : VRange s' := by
  unfold step at hs
  by_cases haw : s.awaitingKey = true
  · rw [if_pos haw] at hs
    injection hs with e; subst e; exact h
  · rw [if_neg haw] at hs
    have h1 : VRange (readWord s).2 := fun j => h j
    dsimp only at hs
    split at hs <;> (try split at hs) <;>
      first
        | exact drawSprite_VRange h1 _ hs
        | (injection hs with e; subst e
           first
             | exact h1
             | exact skipIfVXeqNN_VRange h1 _
             | exact skipIfVXneqNN_VRange h1 _
             | exact skipIfVXeqVY_VRange h1 _
             | exact skipIfVXneqVY_VRange h1 _
             | exact writeV_range h1 _ _
             | exact bitAndMathOps_VRange h1 _
             | exact inputBranching_VRange h1 _
             | exact miscOps_VRange h1 _)

/-- C10: starting from any state whose registers are all in [0, 255],
every public operation — a completed `step`, a timer tick, key-down,
key-up, `reset` and `loadROM` — leaves every register in [0, 255]; all
register arithmetic wraps through the `Uint8Array` store. -/
theorem c10_registers_wrap (s : Chip8) (h : VRange s) :
    (∀ rand s', step s rand = some s' → VRange s') ∧
    VRange (decrementTimers s) ∧
    (∀ code, VRange (handleKeyDown s code)) ∧
    (∀ code, VRange (handleKeyUp s code)) ∧
    VRange (reset s) ∧
    (∀ rom, VRange (loadROM s rom)) := by
  refine ⟨fun rand s' hs => step_VRange h rand hs, ?_, ?_, ?_, reset_VRange s, ?_⟩
  · exact VRange_of_v_eq h (decrementTimers_v s)
  · intro code
    unfold handleKeyDown
    split
    · exact h
    · dsimp only
      split
      · exact writeV_range h _ _
      · exact h
  · intro code
    unfold handleKeyUp
    dsimp only
    split <;> exact h
  · intro rom
    exact @VRange_of_v_eq (reset s) (loadROM s rom) (reset_VRange s) rfl

/-- C10 witness: the invariant holds of the fresh machine and is carried
through a timer tick. -/
theorem c10_registers_wrap_witness :
    VRange initChip8 ∧ VRange (decrementTimers initChip8) :=
  ⟨by unfold VRange; decide,
   (c10_registers_wrap initChip8 (by unfold VRange; decide)).2.1⟩
